import Mathlib

/-!
# Verification of the numpy2dng packing codec and conversion orchestrator

Shallow embedding of `src/numpy2dng/packing.py` and `src/numpy2dng/core.py`.
Rows of a 2-D `uint16` numpy array are modelled as `List Nat`; a store into a
`uint8` output array truncates its value modulo 256 (the numpy cast), written
as an explicit `% 256`.  The intermediate uint16 arithmetic in the packing
routines never exceeds `2 ^ 16` for uint16 inputs, so no other wrap is needed.
-/

set_option maxRecDepth 8000

deriving instance DecidableEq for Except

namespace Numpy2DNG

/-- Error kinds raised by the code (Python `Exception` / `ValueError` /
`TypeError` messages in `core.py` and `packing.py`), one constructor per
distinct raise site used by the embedded fragment. -/
inductive ErrKind where
  | optionsNotSet
  | invalidFormat
  | noWidth
  | noHeight
  | noBpp
  | missingTag
  | shapeMismatch
  | filterShape
  | filterDtype
  | unsupportedDepth
  deriving DecidableEq

/-! ## Packing codec (`packing.py`)

`pack10`, `pack12`, `pack14` are the strided slice assignments of the source,
read off group by group: for width a multiple of the group size (the only way
`pack_raw_safe` invokes them), `out[:, k::b] = f(data[:, j::g])` stores byte
`b*i + k` of each row from sample `g*i + j`, so a row maps group-wise. -/

/-- `pack10`: 4 samples to 5 bytes per group (`packing.py` lines 44-59). -/
def pack10 : List Nat → List Nat
  | s0 :: s1 :: s2 :: s3 :: rest =>
      (s0 >>> 2) % 256 ::
      (((s0 &&& 0x03) <<< 6) ||| (s1 >>> 4)) % 256 ::
      (((s1 &&& 0x0F) <<< 4) ||| (s2 >>> 6)) % 256 ::
      (((s2 &&& 0x3F) <<< 2) ||| (s3 >>> 8)) % 256 ::
      (s3 &&& 0xFF) % 256 ::
      pack10 rest
  | _ => []

/-- `pack12`: 2 samples to 3 bytes per group (`packing.py` lines 62-75). -/
def pack12 : List Nat → List Nat
  | s0 :: s1 :: rest =>
      ((s0 &&& 0x0FF0) >>> 4) % 256 ::
      (((s0 &&& 0x000F) <<< 4) ||| ((s1 &&& 0x0F00) >>> 8)) % 256 ::
      (s1 &&& 0x00FF) % 256 ::
      pack12 rest
  | _ => []

/-- `pack14`: 4 samples to 7 bytes per group (`packing.py` lines 78-95). -/
def pack14 : List Nat → List Nat
  | s0 :: s1 :: s2 :: s3 :: rest =>
      (s0 >>> 6) % 256 ::
      (((s0 &&& 0x3F) <<< 2) ||| (s1 >>> 12)) % 256 ::
      ((s1 >>> 4) &&& 0xFF) % 256 ::
      (((s1 &&& 0x0F) <<< 4) ||| (s2 >>> 10)) % 256 ::
      ((s2 >>> 2) &&& 0xFF) % 256 ::
      (((s2 &&& 0x03) <<< 6) ||| (s3 >>> 8)) % 256 ::
      (s3 &&& 0xFF) % 256 ::
      pack14 rest
  | _ => []

/-- The per-depth group size chosen by `pack_raw_safe` (`packing.py` 18-26). -/
def group_size : Nat → Nat
  | 10 => 4
  | 12 => 2
  | 14 => 4
  | _ => 0

/-- The zero right-padding of one row to the next multiple of the group size
(`packing.py` 29-37: `remainder`, `pad_width`, `np.pad` with constant 0). -/
def padRow (g : Nat) (row : List Nat) : List Nat :=
  if row.length % g = 0 then row
  else row ++ List.replicate (g - row.length % g) 0

/-- `math.ceil(w * bit_depth / 8)` (`packing.py` line 39). -/
def valid_byte_width (w d : Nat) : Nat := (w * d + 7) / 8

/-- `pack_raw_safe` (`packing.py` 7-41) on the row list of a 2-D array.  For a
rectangular array the shape width equals each row's length, so the per-row
padding and truncation below coincide with the source's `w`-based ones.
The final `[:, :valid_byte_width]` column slice is `List.take` per row. -/
def pack_raw_safe (data : List (List Nat)) (bit_depth : Nat) :
    Except ErrKind (List (List Nat)) :=
  match bit_depth with
  | 10 => .ok (data.map fun row =>
      (pack10 (padRow 4 row)).take (valid_byte_width row.length 10))
  | 12 => .ok (data.map fun row =>
      (pack12 (padRow 2 row)).take (valid_byte_width row.length 12))
  | 14 => .ok (data.map fun row =>
      (pack14 (padRow 4 row)).take (valid_byte_width row.length 14))
  | _ => .error .unsupportedDepth

/-! ## Unpacking, per the group byte layout of spec section 4.1

These inverses are read off the spec's layout table (they are the
specification side of the round-trip claim, not source code). -/

/-- Inverse of the 10-bit group byte layout of spec section 4.1. -/
def unpack10 : List Nat → List Nat
  | b0 :: b1 :: b2 :: b3 :: b4 :: rest =>
      ((b0 <<< 2) ||| (b1 >>> 6)) ::
      (((b1 &&& 0x3F) <<< 4) ||| (b2 >>> 4)) ::
      (((b2 &&& 0x0F) <<< 6) ||| (b3 >>> 2)) ::
      (((b3 &&& 0x03) <<< 8) ||| b4) ::
      unpack10 rest
  | _ => []

/-- Inverse of the 12-bit group byte layout of spec section 4.1. -/
def unpack12 : List Nat → List Nat
  | b0 :: b1 :: b2 :: rest =>
      ((b0 <<< 4) ||| (b1 >>> 4)) ::
      (((b1 &&& 0x0F) <<< 8) ||| b2) ::
      unpack12 rest
  | _ => []

/-- Inverse of the 14-bit group byte layout of spec section 4.1. -/
def unpack14 : List Nat → List Nat
  | b0 :: b1 :: b2 :: b3 :: b4 :: b5 :: b6 :: rest =>
      ((b0 <<< 6) ||| (b1 >>> 2)) ::
      (((b1 &&& 0x03) <<< 12) ||| ((b2 <<< 4) ||| (b3 >>> 4))) ::
      (((b3 &&& 0x0F) <<< 10) ||| ((b4 <<< 2) ||| (b5 >>> 6))) ::
      (((b5 &&& 0x3F) <<< 8) ||| b6) ::
      unpack14 rest
  | _ => []

/-- Zero-pad a truncated packed row back to a whole number of group byte
counts before ungrouping (the truncation only ever removes whole trailing
bytes of padding, per spec section 4.1). -/
def padBytes (b : Nat) (bytes : List Nat) : List Nat :=
  bytes ++ List.replicate ((b - bytes.length % b) % b) 0

/-- Unpack one packed row of a given bit depth back to `w` samples. -/
def unpackRow (d w : Nat) (bytes : List Nat) : List Nat :=
  match d with
  | 10 => (unpack10 (padBytes 5 bytes)).take w
  | 12 => (unpack12 (padBytes 3 bytes)).take w
  | 14 => (unpack14 (padBytes 7 bytes)).take w
  | _ => []

/-! ## Core conversion orchestrator (`core.py`)

`dng.py` and `defs.py` of this repository are imported by `core.py` but are
not present under `src/`; the tag identifiers and enumeration values below
are therefore modelled from the spec (sections 3, 4.2 and 6). -/

/-- Modelled from the spec: the TIFF/DNG tag identifiers of the absent
`dng.py` (`Tag`), one constructor per tag named by `core.py` or the spec's
tag catalog; `other n` stands for any further caller-supplied identifier.
Distinct constructors model distinct 16-bit tag identifiers. -/
inductive Tag where
  | NewSubfileType
  | ImageWidth
  | ImageLength
  | BitsPerSample
  | Compression
  | PhotometricInterpretation
  | StripOffsets
  | RowsPerStrip
  | StripByteCounts
  | XResolution
  | Software
  | SampleFormat
  | SamplesPerPixel
  | CFARepeatPatternDim
  | CFAPattern
  | ColorMatrix1
  | ColorMatrix2
  | CalibrationIlluminant1
  | CalibrationIlluminant2
  | AsShotNeutral
  | BlackLevel
  | WhiteLevel
  | DNGVersion
  | DNGBackwardVersion
  | other (n : Nat)
  deriving DecidableEq

/-- Modelled from the spec: `defs.py` `SampleFormat` — unsigned integer or
floating point. -/
inductive SampleFormat where
  | Uint
  | FloatingPoint
  deriving DecidableEq

/-- Modelled from the spec: `defs.py` `DNGVersion` — the base version 1.0
and version 1.4, which introduces float support. -/
inductive DNGVersion where
  | V1_0
  | V1_4
  deriving DecidableEq

/-- Modelled from the spec: `defs.py` `Compression`; the system only ever
emits uncompressed strips. -/
inductive Compression where
  | Uncompressed
  deriving DecidableEq

/-- Modelled from the spec: one tag entry of the absent `dng.py` (`dngTag`):
a tag identifier plus the raw value list that `core.py` reads through
`rawValue[0]`. -/
structure dngTag where
  tag : Tag
  rawValue : List Nat
  deriving DecidableEq

/-- Modelled from the spec: the caller tag container `DNGTags` of the absent
`dng.py`; `core.py` uses exactly two operations on it: `get` (entry by
identifier, `None` when absent) and `list` (all entries). -/
abbrev DNGTags := List dngTag

def DNGTags.get (ts : DNGTags) (t : Tag) : Option dngTag :=
  List.find? (fun e => decide (e.tag = t)) ts

def DNGTags.list (ts : DNGTags) : List dngTag := ts

/-- Element type of an input frame: numpy `uint16`, `float32`, or any other
dtype (rejected by `__data_condition__`). -/
inductive DType where
  | uint16
  | float32
  | otherDtype
  deriving DecidableEq

/-- A 2-D numpy frame with its dtype.  Samples are the 16-bit values for
`uint16`; for `float32` they stand for the raw 32-bit patterns (none of the
embedded code paths does float arithmetic on them). -/
structure Frame where
  dtype : DType
  data : List (List Nat)
  deriving DecidableEq

/-- `rawFrame.shape[:2]` of a 2-D frame. -/
def Frame.shape (f : Frame) : Nat × Nat :=
  (f.data.length, (f.data.headD []).length)

/-- `__data_condition__` (`core.py` 21-33). -/
def data_condition (data : Frame) : Except ErrKind Unit :=
  if data.dtype ≠ DType.uint16 ∧ data.dtype ≠ DType.float32 then
    .error .invalidFormat
  else .ok ()

/-- `__tags_condition__` (`core.py` 35-49): width, height and bits-per-sample
must be present (`tags.get` returning `None` is falsy in the source). -/
def tags_condition (tags : DNGTags) : Except ErrKind Unit :=
  if (tags.get Tag.ImageWidth).isNone then .error .noWidth
  else if (tags.get Tag.ImageLength).isNone then .error .noHeight
  else if (tags.get Tag.BitsPerSample).isNone then .error .noBpp
  else .ok ()

/-- `__filter__` (`core.py` 62-85).  The `isinstance` check cannot fail in
the typed model; the shape and dtype checks follow in source order. -/
def filterStep (rawFrame : Frame) (filter : Option (Frame → Frame)) :
    Except ErrKind Frame :=
  match filter with
  | none => .ok rawFrame
  | some f =>
      let processed := f rawFrame
      if processed.shape ≠ rawFrame.shape then .error .filterShape
      else if processed.dtype ≠ DType.uint16 then .error .filterDtype
      else .ok processed

/-- Which dispatch branch of `__process__` (`core.py` 127-141) produced the
strip: the `uint8` truncation (`astype`), a 10/12/14-bit packed buffer, or
the native pass-through used for 16-bit integers, 32-bit floats — and, in
the code, any other bits-per-sample value. -/
inductive PackedOut where
  | u8 (rows : List (List Nat))
  | packed (rows : List (List Nat))
  | native (frame : Frame)
  deriving DecidableEq

/-- The parts of the assembled main IFD that the claims inspect, with the
strip choice. -/
structure ProcOut where
  sampleFormat : SampleFormat
  backwardVersion : DNGVersion
  compression : Compression
  packed : PackedOut
  ifdTagIds : List Tag
  deriving DecidableEq

/-- The eight reserved tags injected by `__process__` (`core.py` 148-162),
in append order. -/
def reservedTags : List Tag :=
  [Tag.StripOffsets, Tag.NewSubfileType, Tag.StripByteCounts, Tag.Compression,
    Tag.Software, Tag.DNGVersion, Tag.DNGBackwardVersion, Tag.SampleFormat]

/-- `__process__` (`core.py` 87-184) up to directory assembly: reads the
geometry tags, checks the frame shape against them, derives sample format
and backward version from the frame's dtype, dispatches the packing on
bits-per-sample, and appends the reserved tags followed by every caller tag
(no conflict detection; the source's `try` around the append only guards tag
encoding and cannot reject in this model).  The `ndim < 2` check cannot fail
for the 2-D frames modelled here.  The byte-layout serialization lives in
the absent `dng.py` and is not modelled; `ProcOut` records what `core.py`
hands to it. -/
def process (rawFrame : Frame) (tags : DNGTags) : Except ErrKind ProcOut :=
  match tags.get Tag.ImageWidth, tags.get Tag.ImageLength,
      tags.get Tag.BitsPerSample with
  | some wt, some lt, some bt =>
      let width := wt.rawValue.headD 0
      let length := lt.rawValue.headD 0
      let bpp := bt.rawValue.headD 0
      if (rawFrame.data.length, (rawFrame.data.headD []).length)
          ≠ (length, width) then
        .error .shapeMismatch
      else
        let sample_format :=
          if rawFrame.dtype = DType.float32 then SampleFormat.FloatingPoint
          else SampleFormat.Uint

        let backward_version :=
          if rawFrame.dtype = DType.float32 then DNGVersion.V1_4
          else DNGVersion.V1_0
        let mk : PackedOut → ProcOut := fun p =>
          { sampleFormat := sample_format
            backwardVersion := backward_version
            compression := Compression.Uncompressed
            packed := p
            ifdTagIds := reservedTags ++ tags.list.map dngTag.tag }
        if bpp = 8 then
          .ok (mk (.u8 (rawFrame.data.map (List.map (· % 256)))))
        else if bpp = 10 then
          (pack_raw_safe rawFrame.data 10).map fun rows => mk (.packed rows)
        else if bpp = 12 then
          (pack_raw_safe rawFrame.data 12).map fun rows => mk (.packed rows)
        else if bpp = 14 then
          (pack_raw_safe rawFrame.data 14).map fun rows => mk (.packed rows)
        else
          .ok (mk (.native rawFrame))
  | _, _, _ => .error .missingTag

/-- The converter state (`DNGBASE.__init__`, `core.py` 15-19): no tags, no
filter.  The output path is filesystem state and is not modelled. -/
structure Converter where
  tags : Option DNGTags
  filter : Option (Frame → Frame)

def Converter.init : Converter := { tags := none, filter := none }

/-- `options` (`core.py` 186-198): validate the tags, then store them.  A
raised validation error leaves the converter unchanged — the assignment is
never reached. -/
def options (c : Converter) (tags : DNGTags) : Except ErrKind Converter :=
  match tags_condition tags with
  | .error e => .error e
  | .ok _ => .ok { c with tags := some tags }

/-- `convert` (`core.py` 200-243) up to the byte-layout and output-routing
steps (the absent `dng.py`, and filesystem writes): the options guard, the
data condition, `__unpack_pixels__` (the identity), the filter, then
`__process__`. -/
def convert (c : Converter) (image : Frame) : Except ErrKind ProcOut :=
  match c.tags with
  | none => .error .optionsNotSet
  | some tags =>
      match data_condition image with
      | .error e => .error e
      | .ok _ =>
          let unpacked := image
          match filterStep unpacked c.filter with
          | .error e => .error e
          | .ok filtered => process filtered tags

/-! ## Concrete inputs used by the claim witnesses and counterexamples -/

/-- A configured tag set whose bits-per-sample is 11, outside the supported
set. -/
def c4tags : DNGTags :=
  [⟨Tag.ImageWidth, [1]⟩, ⟨Tag.ImageLength, [1]⟩, ⟨Tag.BitsPerSample, [11]⟩]

def c4frame : Frame := ⟨DType.uint16, [[5]]⟩

def c4out : ProcOut :=
  { sampleFormat := SampleFormat.Uint
    backwardVersion := DNGVersion.V1_0
    compression := Compression.Uncompressed
    packed := PackedOut.native c4frame
    ifdTagIds := reservedTags ++
      [Tag.ImageWidth, Tag.ImageLength, Tag.BitsPerSample] }

/-- A caller tag set that also supplies the reserved `Software` tag. -/
def c5tags : DNGTags :=
  [⟨Tag.ImageWidth, [1]⟩, ⟨Tag.ImageLength, [1]⟩, ⟨Tag.BitsPerSample, [16]⟩,
    ⟨Tag.Software, [0]⟩]

def c5frame : Frame := ⟨DType.uint16, [[3]]⟩

def c5out : ProcOut :=
  { sampleFormat := SampleFormat.Uint
    backwardVersion := DNGVersion.V1_0
    compression := Compression.Uncompressed
    packed := PackedOut.native c5frame
    ifdTagIds := reservedTags ++
      [Tag.ImageWidth, Tag.ImageLength, Tag.BitsPerSample, Tag.Software] }

def c7tags : DNGTags :=
  [⟨Tag.ImageWidth, [1]⟩, ⟨Tag.ImageLength, [1]⟩, ⟨Tag.BitsPerSample, [32]⟩]

def c7frame : Frame := ⟨DType.float32, [[99]]⟩

def c7out : ProcOut :=
  { sampleFormat := SampleFormat.FloatingPoint
    backwardVersion := DNGVersion.V1_4
    compression := Compression.Uncompressed
    packed := PackedOut.native c7frame
    ifdTagIds := reservedTags ++
      [Tag.ImageWidth, Tag.ImageLength, Tag.BitsPerSample] }

def c8tags : DNGTags :=
  [⟨Tag.ImageWidth, [1]⟩, ⟨Tag.ImageLength, [1]⟩, ⟨Tag.BitsPerSample, [32]⟩]

/-- A pixel transform that replaces the frame by a constant uint16 frame
(it satisfies the filter contract: same 1-by-1 shape, uint16 dtype). -/
def c8transform : Frame → Frame := fun _ => ⟨DType.uint16, [[5]]⟩

def c8img : Frame := ⟨DType.float32, [[7]]⟩

def c8out : ProcOut :=
  { sampleFormat := SampleFormat.FloatingPoint
    backwardVersion := DNGVersion.V1_4
    compression := Compression.Uncompressed
    packed := PackedOut.native c8img
    ifdTagIds := reservedTags ++
      [Tag.ImageWidth, Tag.ImageLength, Tag.BitsPerSample] }

/-- A 10-bit, 1-by-4 configuration exercising the packing path of the
mutation claim. -/
def c9tags : DNGTags :=
  [⟨Tag.ImageWidth, [4]⟩, ⟨Tag.ImageLength, [1]⟩, ⟨Tag.BitsPerSample, [10]⟩]

/-! ## Buffer-store model for the mutation claim

numpy arrays live in buffers; the conversion code is replayed against a
store of buffers so that which buffer each statement writes is explicit.
Per numpy semantics, `np.pad`, `np.zeros` and `astype` allocate and return
fresh arrays; the strided stores `out[:, k::b] = ...` write only the freshly
allocated `out`; basic slicing (`out_padded[:, :w]`) returns a view and
writes nothing. -/

/-- A buffer holding one 2-D array's element values. -/
abbrev Buffer := List (List Nat)

/-- The store: the allocated buffers, indexed by allocation order. -/
abbrev Store := List Buffer

def Store.read (s : Store) (r : Nat) : Buffer := s.getD r []

/-- Allocate a fresh buffer; returns the new store and the fresh ref. -/
def Store.alloc (s : Store) (b : Buffer) : Store × Nat := (s ++ [b], s.length)

/-- Overwrite the buffer at `r`. -/
def Store.write (s : Store) (r : Nat) (b : Buffer) : Store := s.set r b

/-- `pack10` in store form (`packing.py` 44-59): `out = np.zeros(...)`
allocates, the five strided stores write only `out`, and the input buffer is
only read. -/
def pack10_st (s : Store) (dataRef : Nat) : Store × Nat :=
  let data := s.read dataRef
  let sa := s.alloc (data.map fun row =>
    List.replicate (row.length * 5 / 4) 0)
  (sa.1.write sa.2 (data.map pack10), sa.2)

/-- `pack12` in store form (`packing.py` 62-75). -/
def pack12_st (s : Store) (dataRef : Nat) : Store × Nat :=
  let data := s.read dataRef
  let sa := s.alloc (data.map fun row =>
    List.replicate (row.length * 3 / 2) 0)
  (sa.1.write sa.2 (data.map pack12), sa.2)

/-- `pack14` in store form (`packing.py` 78-95). -/
def pack14_st (s : Store) (dataRef : Nat) : Store × Nat :=
  let data := s.read dataRef
  let sa := s.alloc (data.map fun row =>
    List.replicate (row.length * 7 / 4) 0)
  (sa.1.write sa.2 (data.map pack14), sa.2)

/-- The tail of `pack_raw_safe` after the depth dispatch (`packing.py`
29-41): `np.pad` allocates a fresh padded buffer when the width is not a
multiple of the group size, otherwise `data_padded` aliases the input; the
final `[:, :valid_byte_width]` column slice is a view — the returned ref
plus a valid byte width, with no store write. -/
def pack_tail_st (s : Store) (dataRef : Nat) (g : Nat)
    (packF : Store → Nat → Store × Nat) (d : Nat) : Store × Nat × Nat :=
  let data := s.read dataRef
  let w := (data.headD []).length
  let remainder := w % g
  let sp : Store × Nat :=
    if remainder = 0 then (s, dataRef)
    else s.alloc (data.map fun row => row ++ List.replicate (g - remainder) 0)
  let out := packF sp.1 sp.2
  (out.1, out.2, valid_byte_width w d)

/-- `pack_raw_safe` in store form (`packing.py` 7-41). -/
def pack_raw_safe_st (s : Store) (dataRef : Nat) (bit_depth : Nat) :
    Except ErrKind (Store × Nat × Nat) :=
  match bit_depth with
  | 10 => .ok (pack_tail_st s dataRef 4 pack10_st 10)
  | 12 => .ok (pack_tail_st s dataRef 2 pack12_st 12)
  | 14 => .ok (pack_tail_st s dataRef 4 pack14_st 14)
  | _ => .error .unsupportedDepth

/-- `__process__` up to its packing dispatch (`core.py` 101-141) in store
form: the tag reads, the shape check, then the per-bits-per-sample strip.
`astype("uint8")` allocates a fresh buffer; the 16-bit/float/other branch is
`packedFrame = rawFrame` — an alias of the input, no copy, no write.  The
store is returned in every outcome, raised errors included (a raise leaves
the store as it stood). -/
def process_st (s : Store) (frameRef : Nat) (tags : DNGTags) :
    Store × Except ErrKind Nat :=
  match tags.get Tag.ImageWidth, tags.get Tag.ImageLength,
      tags.get Tag.BitsPerSample with
  | some wt, some lt, some bt =>
      let width := wt.rawValue.headD 0
      let length := lt.rawValue.headD 0
      let bpp := bt.rawValue.headD 0
      let data := s.read frameRef
      if (data.length, (data.headD []).length) ≠ (length, width) then
        (s, .error .shapeMismatch)
      else if bpp = 8 then
        let sa := s.alloc (data.map (List.map (· % 256)))
        (sa.1, .ok sa.2)
      else if bpp = 10 then
        match pack_raw_safe_st s frameRef 10 with
        | .ok sr => (sr.1, .ok sr.2.1)
        | .error e => (s, .error e)
      else if bpp = 12 then
        match pack_raw_safe_st s frameRef 12 with
        | .ok sr => (sr.1, .ok sr.2.1)
        | .error e => (s, .error e)
      else if bpp = 14 then
        match pack_raw_safe_st s frameRef 14 with
        | .ok sr => (sr.1, .ok sr.2.1)
        | .error e => (s, .error e)
      else (s, .ok frameRef)
  | _, _, _ => (s, .error .missingTag)

/-- `convert` (`core.py` 200-224) in store form, for a converter with no
pixel transform configured (`self.filter is None`, as every freshly
constructed converter has): the options guard, the data condition on the
frame's dtype, `__unpack_pixels__` and the trivial filter — both alias the
input frame — then the packing dispatch of `__process__`. -/
def convert_st (s : Store) (ctags : Option DNGTags) (imageRef : Nat)
    (dtype : DType) : Store × Except ErrKind Nat :=
  match ctags with
  | none => (s, .error .optionsNotSet)
  | some tags =>
      if dtype ≠ DType.uint16 ∧ dtype ≠ DType.float32 then
        (s, .error .invalidFormat)
      else
        process_st s imageRef tags

/-! ## Bit-arithmetic helpers -/

/-- A bitwise or of shifted disjoint fields is an addition. -/
theorem or_add (a b k : Nat) (h : b < 2 ^ k) : a <<< k ||| b = a <<< k + b := by
  rw [Nat.shiftLeft_eq, Nat.mul_comm a, ← Nat.mul_add_lt_is_or h]

/-- Right shift distributes over bitwise and. -/
theorem and_shr (a b k : Nat) : (a &&& b) >>> k = (a >>> k) &&& (b >>> k) := by
  apply Nat.eq_of_testBit_eq
  intro i
  simp [Nat.testBit_shiftRight, Nat.testBit_and, Nat.add_comm]

theorem and_3 (a : Nat) : a &&& 3 = a % 4 := by
  simpa using Nat.and_pow_two_sub_one_eq_mod a 2

theorem and_15 (a : Nat) : a &&& 15 = a % 16 := by
  simpa using Nat.and_pow_two_sub_one_eq_mod a 4

theorem and_63 (a : Nat) : a &&& 63 = a % 64 := by
  simpa using Nat.and_pow_two_sub_one_eq_mod a 6

theorem and_255 (a : Nat) : a &&& 255 = a % 256 := by
  simpa using Nat.and_pow_two_sub_one_eq_mod a 8

/-! ## Group-level round trips -/

/-- One 10-bit group of in-range samples survives pack-then-unpack. -/
theorem unpack10_pack10_group (s0 s1 s2 s3 : Nat)
    (h0 : s0 < 1024) (h1 : s1 < 1024) (h2 : s2 < 1024) (h3 : s3 < 1024) :
    unpack10 (pack10 [s0, s1, s2, s3]) = [s0, s1, s2, s3] := by
  have hb1 : ((s0 &&& 0x03) <<< 6) ||| (s1 >>> 4) = (s0 % 4) <<< 6 + s1 / 16 := by
    rw [or_add _ _ _ (by simp [Nat.shiftRight_eq_div_pow]; omega), and_3,
      Nat.shiftRight_eq_div_pow]
  have hb2 : ((s1 &&& 0x0F) <<< 4) ||| (s2 >>> 6) = (s1 % 16) <<< 4 + s2 / 64 := by
    rw [or_add _ _ _ (by simp [Nat.shiftRight_eq_div_pow]; omega), and_15,
      Nat.shiftRight_eq_div_pow]
  have hb3 : ((s2 &&& 0x3F) <<< 2) ||| (s3 >>> 8) = (s2 % 64) <<< 2 + s3 / 256 := by
    rw [or_add _ _ _ (by simp [Nat.shiftRight_eq_div_pow]; omega), and_63,
      Nat.shiftRight_eq_div_pow]
  simp only [pack10, unpack10, hb1, hb2, hb3, and_255, List.cons.injEq, and_true]
  rw [or_add _ _ _ (by simp [Nat.shiftRight_eq_div_pow, Nat.shiftLeft_eq]; omega),
    or_add _ _ _ (by simp [Nat.shiftRight_eq_div_pow, Nat.shiftLeft_eq]; omega),
    or_add _ _ _ (by simp [Nat.shiftRight_eq_div_pow, Nat.shiftLeft_eq]; omega),
    or_add _ _ _ (by omega)]
  simp only [Nat.shiftLeft_eq, Nat.shiftRight_eq_div_pow, and_3, and_15, and_63]
  norm_num
  omega

/-- One 12-bit group of in-range samples survives pack-then-unpack. -/
theorem unpack12_pack12_group (s0 s1 : Nat) (h0 : s0 < 4096) (h1 : s1 < 4096) :
    unpack12 (pack12 [s0, s1]) = [s0, s1] := by
  have hB0 : (s0 &&& 0x0FF0) >>> 4 = s0 / 16 % 256 := by
    rw [and_shr, Nat.shiftRight_eq_div_pow, Nat.shiftRight_eq_div_pow]
    norm_num [and_255]
  have hB1r : (s1 &&& 0x0F00) >>> 8 = s1 / 256 % 16 := by
    rw [and_shr, Nat.shiftRight_eq_div_pow, Nat.shiftRight_eq_div_pow]
    norm_num [and_15]
  have hb1 : ((s0 &&& 0x000F) <<< 4) ||| ((s1 &&& 0x0F00) >>> 8) =
      (s0 % 16) <<< 4 + s1 / 256 % 16 := by
    rw [or_add _ _ _ (by rw [hB1r]; omega), hB1r, and_15]
  simp only [pack12, unpack12, hB0, hb1, and_255, List.cons.injEq, and_true]
  rw [or_add _ _ _ (by simp [Nat.shiftRight_eq_div_pow]; omega),
    or_add _ _ _ (by omega)]
  simp only [Nat.shiftLeft_eq, Nat.shiftRight_eq_div_pow, and_15]
  norm_num
  omega

/-- One 14-bit group of in-range samples survives pack-then-unpack. -/
theorem unpack14_pack14_group (s0 s1 s2 s3 : Nat)
    (h0 : s0 < 16384) (h1 : s1 < 16384) (h2 : s2 < 16384) (h3 : s3 < 16384) :
    unpack14 (pack14 [s0, s1, s2, s3]) = [s0, s1, s2, s3] := by
  have hb1 : ((s0 &&& 0x3F) <<< 2) ||| (s1 >>> 12) = (s0 % 64) <<< 2 + s1 / 4096 := by
    rw [or_add _ _ _ (by simp [Nat.shiftRight_eq_div_pow]; omega), and_63,
      Nat.shiftRight_eq_div_pow]
  have hb2 : (s1 >>> 4) &&& 0xFF = s1 / 16 % 256 := by
    rw [and_255, Nat.shiftRight_eq_div_pow]
  have hb3 : ((s1 &&& 0x0F) <<< 4) ||| (s2 >>> 10) = (s1 % 16) <<< 4 + s2 / 1024 := by
    rw [or_add _ _ _ (by simp [Nat.shiftRight_eq_div_pow]; omega), and_15,
      Nat.shiftRight_eq_div_pow]
  have hb4 : (s2 >>> 2) &&& 0xFF = s2 / 4 % 256 := by
    rw [and_255, Nat.shiftRight_eq_div_pow]
  have hb5 : ((s2 &&& 0x03) <<< 6) ||| (s3 >>> 8) = (s2 % 4) <<< 6 + s3 / 256 := by
    rw [or_add _ _ _ (by simp [Nat.shiftRight_eq_div_pow]; omega), and_3,
      Nat.shiftRight_eq_div_pow]
  simp only [pack14, unpack14, hb1, hb2, hb3, hb4, hb5, and_255,
    List.cons.injEq, and_true]
  rw [or_add _ _ _ (by simp [Nat.shiftRight_eq_div_pow, Nat.shiftLeft_eq]; omega),
    or_add (b := ((s1 / 16 % 256 % 256) <<< 4) ||| _) _ _
      (by
        rw [or_add _ _ _ (by simp [Nat.shiftRight_eq_div_pow]; omega)]
        simp [Nat.shiftRight_eq_div_pow, Nat.shiftLeft_eq]; omega),
    or_add _ _ _ (by simp [Nat.shiftRight_eq_div_pow]; omega),
    or_add (b := ((s2 / 4 % 256 % 256) <<< 2) ||| _) _ _
      (by
        rw [or_add _ _ _ (by simp [Nat.shiftRight_eq_div_pow]; omega)]
        simp [Nat.shiftRight_eq_div_pow, Nat.shiftLeft_eq]; omega),
    or_add _ _ _ (by simp [Nat.shiftRight_eq_div_pow]; omega),
    or_add _ _ _ (by omega)]
  simp only [Nat.shiftLeft_eq, Nat.shiftRight_eq_div_pow, and_3, and_15, and_63]
  norm_num
  omega

/-! ## Structural lemmas about the group transforms -/

theorem pack10_append : ∀ (A B : List Nat), A.length % 4 = 0 →
    pack10 (A ++ B) = pack10 A ++ pack10 B
  | [], _, _ => by simp [pack10]
  | [_], _, h => by simp at h
  | [_, _], _, h => by simp at h
  | [_, _, _], _, h => by simp at h
  | _ :: _ :: _ :: _ :: A', B, h => by
      simp only [List.cons_append, List.append_eq, pack10]
      rw [pack10_append A' B (by simp [List.length_cons] at h; omega)]

theorem pack12_append : ∀ (A B : List Nat), A.length % 2 = 0 →
    pack12 (A ++ B) = pack12 A ++ pack12 B
  | [], _, _ => by simp [pack12]
  | [_], _, h => by simp at h
  | _ :: _ :: A', B, h => by
      simp only [List.cons_append, List.append_eq, pack12]
      rw [pack12_append A' B (by simp [List.length_cons] at h; omega)]

theorem pack14_append : ∀ (A B : List Nat), A.length % 4 = 0 →
    pack14 (A ++ B) = pack14 A ++ pack14 B
  | [], _, _ => by simp [pack14]
  | [_], _, h => by simp at h
  | [_, _], _, h => by simp at h
  | [_, _, _], _, h => by simp at h
  | _ :: _ :: _ :: _ :: A', B, h => by
      simp only [List.cons_append, List.append_eq, pack14]
      rw [pack14_append A' B (by simp [List.length_cons] at h; omega)]

theorem pack10_length : ∀ row : List Nat, (pack10 row).length = row.length / 4 * 5
  | [] => by simp [pack10]
  | [_] => by simp [pack10]
  | [_, _] => by simp [pack10]
  | [_, _, _] => by simp [pack10]
  | _ :: _ :: _ :: _ :: rest => by
      simp [pack10, pack10_length rest]; omega

theorem pack12_length : ∀ row : List Nat, (pack12 row).length = row.length / 2 * 3
  | [] => by simp [pack12]
  | [_] => by simp [pack12]
  | _ :: _ :: rest => by
      simp [pack12, pack12_length rest]; omega

theorem pack14_length : ∀ row : List Nat, (pack14 row).length = row.length / 4 * 7
  | [] => by simp [pack14]
  | [_] => by simp [pack14]
  | [_, _] => by simp [pack14]
  | [_, _, _] => by simp [pack14]
  | _ :: _ :: _ :: _ :: rest => by
      simp [pack14, pack14_length rest]; omega

/-- Whole rows of full groups of in-range samples survive pack-then-unpack. -/
theorem unpack10_pack10 : ∀ row : List Nat, row.length % 4 = 0 →
    (∀ s ∈ row, s < 1024) → unpack10 (pack10 row) = row
  | [], _, _ => by simp [pack10, unpack10]
  | [_], h, _ => by simp at h
  | [_, _], h, _ => by simp at h
  | [_, _, _], h, _ => by simp at h
  | s0 :: s1 :: s2 :: s3 :: rest, h, hb => by
      have hg := unpack10_pack10_group s0 s1 s2 s3 (hb _ (by simp)) (hb _ (by simp))
        (hb _ (by simp)) (hb _ (by simp))
      have hrest := unpack10_pack10 rest (by simp [List.length_cons] at h; omega)
        (fun s hs => hb s (by simp [hs]))
      simp only [pack10, unpack10, List.cons.injEq, and_true] at hg
      simp only [pack10, unpack10, hrest, List.cons.injEq, and_true]
      exact hg

theorem unpack12_pack12 : ∀ row : List Nat, row.length % 2 = 0 →
    (∀ s ∈ row, s < 4096) → unpack12 (pack12 row) = row
  | [], _, _ => by simp [pack12, unpack12]
  | [_], h, _ => by simp at h
  | s0 :: s1 :: rest, h, hb => by
      have hg := unpack12_pack12_group s0 s1 (hb _ (by simp)) (hb _ (by simp))
      have hrest := unpack12_pack12 rest (by simp [List.length_cons] at h; omega)
        (fun s hs => hb s (by simp [hs]))
      simp only [pack12, unpack12, List.cons.injEq, and_true] at hg
      simp only [pack12, unpack12, hrest, List.cons.injEq, and_true]
      exact hg

theorem unpack14_pack14 : ∀ row : List Nat, row.length % 4 = 0 →
    (∀ s ∈ row, s < 16384) → unpack14 (pack14 row) = row
  | [], _, _ => by simp [pack14, unpack14]
  | [_], h, _ => by simp at h
  | [_, _], h, _ => by simp at h
  | [_, _, _], h, _ => by simp at h
  | s0 :: s1 :: s2 :: s3 :: rest, h, hb => by
      have hg := unpack14_pack14_group s0 s1 s2 s3 (hb _ (by simp)) (hb _ (by simp))
        (hb _ (by simp)) (hb _ (by simp))
      have hrest := unpack14_pack14 rest (by simp [List.length_cons] at h; omega)
        (fun s hs => hb s (by simp [hs]))
      simp only [pack14, unpack14, List.cons.injEq, and_true] at hg
      simp only [pack14, unpack14, hrest, List.cons.injEq, and_true]
      exact hg

/-! ## Truncation only removes zero bytes of the padding samples -/

theorem tail10_1 (t0 : Nat) :
    (pack10 [t0, 0, 0, 0]).take 2 ++ List.replicate 3 0 = pack10 [t0, 0, 0, 0] := by
  simp [pack10]

theorem tail10_2 (t0 t1 : Nat) :
    (pack10 [t0, t1, 0, 0]).take 3 ++ List.replicate 2 0 = pack10 [t0, t1, 0, 0] := by
  simp [pack10]

theorem tail10_3 (t0 t1 t2 : Nat) :
    (pack10 [t0, t1, t2, 0]).take 4 ++ List.replicate 1 0 = pack10 [t0, t1, t2, 0] := by
  simp [pack10]

/-- Re-padding a truncated packed row with zero bytes restores the packed
padded row, provided the bytes cut were zeros (`hG`). -/
theorem padBytes_take (X G : List Nat) (b cr : Nat) (h0 : 0 < cr) (hcr : cr < b)
    (hX : X.length % b = 0) (hGb : G.length = b)
    (hG : G.take cr ++ List.replicate (b - cr) 0 = G) :
    padBytes b ((X ++ G).take (X.length + cr)) = X ++ G := by
  obtain ⟨k, hk⟩ := Nat.dvd_of_mod_eq_zero hX
  have hlen : (X ++ G.take cr).length = X.length + cr := by
    simp [hGb]
    omega
  rw [List.take_append, padBytes, hlen, hk]
  have h1 : (b * k + cr) % b = cr := by
    rw [Nat.add_comm, Nat.add_mul_mod_self_left, Nat.mod_eq_of_lt hcr]
  rw [h1, Nat.mod_eq_of_lt (by omega), List.append_assoc, hG]

/-! ## Row-level round trip, any width (claim C1 core) -/

/-- Depth 10: the packed-and-truncated row of `pack_raw_safe` unpacks to the
original row. -/
theorem roundtrip_row10 (row : List Nat) (hb : ∀ s ∈ row, s < 1024) :
    unpackRow 10 row.length
      ((pack10 (padRow 4 row)).take (valid_byte_width row.length 10)) = row := by
  by_cases hr : row.length % 4 = 0
  · have hc : valid_byte_width row.length 10 = row.length / 4 * 5 := by
      unfold valid_byte_width; omega
    rw [padRow, if_pos hr, hc, List.take_of_length_le (le_of_eq (pack10_length row))]
    have hpb : padBytes 5 (pack10 row) = pack10 row := by
      rw [padBytes, pack10_length row]
      simp [Nat.mul_mod_left]
    simp only [unpackRow, hpb, unpack10_pack10 row hr hb, List.take_length]
  · obtain ⟨A, T, hAT, hAl, hTlen⟩ :
        ∃ A T, A ++ T = row ∧ A.length % 4 = 0 ∧ T.length = row.length % 4 :=
      ⟨row.take (4 * (row.length / 4)), row.drop (4 * (row.length / 4)),
        List.take_append_drop _ row, by simp; omega, by simp; omega⟩
    subst hAT
    have h123 : T.length = 1 ∨ T.length = 2 ∨ T.length = 3 := by omega
    rcases h123 with h1 | h2 | h3
    · obtain ⟨t0, rfl⟩ : ∃ t0, T = [t0] := by
        rcases T with _ | ⟨a, _ | _⟩
        · simp at h1
        · exact ⟨a, rfl⟩
        · simp at h1
      have hm : (A ++ [t0]).length % 4 = 1 := by simp; omega
      have hpad : padRow 4 (A ++ [t0]) = A ++ [t0, 0, 0, 0] := by
        rw [padRow, if_neg hr, hm,
          show List.replicate (4 - 1) (0 : Nat) = [0, 0, 0] from rfl,
          List.append_assoc]
        simp
      have hc : valid_byte_width (A ++ [t0]).length 10 = (pack10 A).length + 2 := by
        rw [pack10_length]
        simp [valid_byte_width]
        omega
      have hbnd : ∀ s ∈ A ++ [t0, 0, 0, 0], s < 1024 := by
        intro s hs
        rcases List.mem_append.mp hs with h | h
        · exact hb s (List.mem_append.mpr (Or.inl h))
        · simp at h
          rcases h with rfl | rfl | rfl | rfl <;>
            first
            | omega
            | exact hb _ (by simp)
      rw [hpad, pack10_append A [t0, 0, 0, 0] hAl, hc]
      simp only [unpackRow]
      rw [padBytes_take (pack10 A) (pack10 [t0, 0, 0, 0]) 5 2 (by omega) (by omega)
          (by rw [pack10_length]; omega) (by simp [pack10]) (tail10_1 t0),
        ← pack10_append A [t0, 0, 0, 0] hAl,
        unpack10_pack10 (A ++ [t0, 0, 0, 0]) (by simp; omega) hbnd,
        show A ++ [t0, 0, 0, 0] = (A ++ [t0]) ++ [0, 0, 0] by simp,
        List.take_left]
    · obtain ⟨t0, t1, rfl⟩ : ∃ t0 t1, T = [t0, t1] := by
        rcases T with _ | ⟨a, _ | ⟨b, _ | _⟩⟩
        · simp at h2
        · simp at h2
        · exact ⟨a, b, rfl⟩
        · simp at h2
      have hm : (A ++ [t0, t1]).length % 4 = 2 := by simp; omega
      have hpad : padRow 4 (A ++ [t0, t1]) = A ++ [t0, t1, 0, 0] := by
        rw [padRow, if_neg hr, hm,
          show List.replicate (4 - 2) (0 : Nat) = [0, 0] from rfl,
          List.append_assoc]
        simp
      have hc : valid_byte_width (A ++ [t0, t1]).length 10 = (pack10 A).length + 3 := by
        rw [pack10_length]
        simp [valid_byte_width]
        omega
      have hbnd : ∀ s ∈ A ++ [t0, t1, 0, 0], s < 1024 := by
        intro s hs
        rcases List.mem_append.mp hs with h | h
        · exact hb s (List.mem_append.mpr (Or.inl h))
        · simp at h
          rcases h with rfl | rfl | rfl | rfl <;>
            first
            | omega
            | exact hb _ (by simp)
      rw [hpad, pack10_append A [t0, t1, 0, 0] hAl, hc]
      simp only [unpackRow]
      rw [padBytes_take (pack10 A) (pack10 [t0, t1, 0, 0]) 5 3 (by omega) (by omega)
          (by rw [pack10_length]; omega) (by simp [pack10]) (tail10_2 t0 t1),
        ← pack10_append A [t0, t1, 0, 0] hAl,
        unpack10_pack10 (A ++ [t0, t1, 0, 0]) (by simp; omega) hbnd,
        show A ++ [t0, t1, 0, 0] = (A ++ [t0, t1]) ++ [0, 0] by simp,
        List.take_left]
    · obtain ⟨t0, t1, t2, rfl⟩ : ∃ t0 t1 t2, T = [t0, t1, t2] := by
        rcases T with _ | ⟨a, _ | ⟨b, _ | ⟨c, _ | _⟩⟩⟩
        · simp at h3
        · simp at h3
        · simp at h3
        · exact ⟨a, b, c, rfl⟩
        · simp at h3
      have hm : (A ++ [t0, t1, t2]).length % 4 = 3 := by simp; omega
      have hpad : padRow 4 (A ++ [t0, t1, t2]) = A ++ [t0, t1, t2, 0] := by
        rw [padRow, if_neg hr, hm,
          show List.replicate (4 - 3) (0 : Nat) = [0] from rfl,
          List.append_assoc]
        simp
      have hc : valid_byte_width (A ++ [t0, t1, t2]).length 10
          = (pack10 A).length + 4 := by
        rw [pack10_length]
        simp [valid_byte_width]
        omega
      have hbnd : ∀ s ∈ A ++ [t0, t1, t2, 0], s < 1024 := by
        intro s hs
        rcases List.mem_append.mp hs with h | h
        · exact hb s (List.mem_append.mpr (Or.inl h))
        · simp at h
          rcases h with rfl | rfl | rfl | rfl <;>
            first
            | omega
            | exact hb _ (by simp)
      rw [hpad, pack10_append A [t0, t1, t2, 0] hAl, hc]
      simp only [unpackRow]
      rw [padBytes_take (pack10 A) (pack10 [t0, t1, t2, 0]) 5 4 (by omega) (by omega)
          (by rw [pack10_length]; omega) (by simp [pack10]) (tail10_3 t0 t1 t2),
        ← pack10_append A [t0, t1, t2, 0] hAl,
        unpack10_pack10 (A ++ [t0, t1, t2, 0]) (by simp; omega) hbnd,
        show A ++ [t0, t1, t2, 0] = (A ++ [t0, t1, t2]) ++ [0] by simp,
        List.take_left]

theorem tail12_1 (t0 : Nat) :
    (pack12 [t0, 0]).take 2 ++ List.replicate 1 0 = pack12 [t0, 0] := by
  simp [pack12]

/-- Depth 12: the packed-and-truncated row of `pack_raw_safe` unpacks to the
original row. -/
theorem roundtrip_row12 (row : List Nat) (hb : ∀ s ∈ row, s < 4096) :
    unpackRow 12 row.length
      ((pack12 (padRow 2 row)).take (valid_byte_width row.length 12)) = row := by
  by_cases hr : row.length % 2 = 0
  · have hc : valid_byte_width row.length 12 = row.length / 2 * 3 := by
      unfold valid_byte_width; omega
    rw [padRow, if_pos hr, hc, List.take_of_length_le (le_of_eq (pack12_length row))]
    have hpb : padBytes 3 (pack12 row) = pack12 row := by
      rw [padBytes, pack12_length row]
      simp [Nat.mul_mod_left]
    simp only [unpackRow, hpb, unpack12_pack12 row hr hb, List.take_length]
  · obtain ⟨A, T, hAT, hAl, hTlen⟩ :
        ∃ A T, A ++ T = row ∧ A.length % 2 = 0 ∧ T.length = row.length % 2 :=
      ⟨row.take (2 * (row.length / 2)), row.drop (2 * (row.length / 2)),
        List.take_append_drop _ row, by simp; omega, by simp; omega⟩
    subst hAT
    have h1 : T.length = 1 := by omega
    obtain ⟨t0, rfl⟩ : ∃ t0, T = [t0] := by
      rcases T with _ | ⟨a, _ | _⟩
      · simp at h1
      · exact ⟨a, rfl⟩
      · simp at h1
    have hm : (A ++ [t0]).length % 2 = 1 := by simp; omega
    have hpad : padRow 2 (A ++ [t0]) = A ++ [t0, 0] := by
      rw [padRow, if_neg hr, hm,
        show List.replicate (2 - 1) (0 : Nat) = [0] from rfl,
        List.append_assoc]
      simp
    have hc : valid_byte_width (A ++ [t0]).length 12 = (pack12 A).length + 2 := by
      rw [pack12_length]
      simp [valid_byte_width]
      omega
    have hbnd : ∀ s ∈ A ++ [t0, 0], s < 4096 := by
      intro s hs
      rcases List.mem_append.mp hs with h | h
      · exact hb s (List.mem_append.mpr (Or.inl h))
      · simp at h
        rcases h with rfl | rfl <;>
          first
          | omega
          | exact hb _ (by simp)
    rw [hpad, pack12_append A [t0, 0] hAl, hc]
    simp only [unpackRow]
    rw [padBytes_take (pack12 A) (pack12 [t0, 0]) 3 2 (by omega) (by omega)
        (by rw [pack12_length]; omega) (by simp [pack12]) (tail12_1 t0),
      ← pack12_append A [t0, 0] hAl,
      unpack12_pack12 (A ++ [t0, 0]) (by simp; omega) hbnd,
      show A ++ [t0, 0] = (A ++ [t0]) ++ [0] by simp,
      List.take_left]

theorem tail14_1 (t0 : Nat) :
    (pack14 [t0, 0, 0, 0]).take 2 ++ List.replicate 5 0 = pack14 [t0, 0, 0, 0] := by
  simp [pack14]

theorem tail14_2 (t0 t1 : Nat) :
    (pack14 [t0, t1, 0, 0]).take 4 ++ List.replicate 3 0 = pack14 [t0, t1, 0, 0] := by
  simp [pack14]

theorem tail14_3 (t0 t1 t2 : Nat) :
    (pack14 [t0, t1, t2, 0]).take 6 ++ List.replicate 1 0
      = pack14 [t0, t1, t2, 0] := by
  simp [pack14]

/-- Depth 14: the packed-and-truncated row of `pack_raw_safe` unpacks to the
original row. -/
theorem roundtrip_row14 (row : List Nat) (hb : ∀ s ∈ row, s < 16384) :
    unpackRow 14 row.length
      ((pack14 (padRow 4 row)).take (valid_byte_width row.length 14)) = row := by
  by_cases hr : row.length % 4 = 0
  · have hc : valid_byte_width row.length 14 = row.length / 4 * 7 := by
      unfold valid_byte_width; omega
    rw [padRow, if_pos hr, hc, List.take_of_length_le (le_of_eq (pack14_length row))]
    have hpb : padBytes 7 (pack14 row) = pack14 row := by
      rw [padBytes, pack14_length row]
      simp [Nat.mul_mod_left]
    simp only [unpackRow, hpb, unpack14_pack14 row hr hb, List.take_length]
  · obtain ⟨A, T, hAT, hAl, hTlen⟩ :
        ∃ A T, A ++ T = row ∧ A.length % 4 = 0 ∧ T.length = row.length % 4 :=
      ⟨row.take (4 * (row.length / 4)), row.drop (4 * (row.length / 4)),
        List.take_append_drop _ row, by simp; omega, by simp; omega⟩
    subst hAT
    have h123 : T.length = 1 ∨ T.length = 2 ∨ T.length = 3 := by omega
    rcases h123 with h1 | h2 | h3
    · obtain ⟨t0, rfl⟩ : ∃ t0, T = [t0] := by
        rcases T with _ | ⟨a, _ | _⟩
        · simp at h1
        · exact ⟨a, rfl⟩
        · simp at h1
      have hm : (A ++ [t0]).length % 4 = 1 := by simp; omega
      have hpad : padRow 4 (A ++ [t0]) = A ++ [t0, 0, 0, 0] := by
        rw [padRow, if_neg hr, hm,
          show List.replicate (4 - 1) (0 : Nat) = [0, 0, 0] from rfl,
          List.append_assoc]
        simp
      have hc : valid_byte_width (A ++ [t0]).length 14 = (pack14 A).length + 2 := by
        rw [pack14_length]
        simp [valid_byte_width]
        omega
      have hbnd : ∀ s ∈ A ++ [t0, 0, 0, 0], s < 16384 := by
        intro s hs
        rcases List.mem_append.mp hs with h | h
        · exact hb s (List.mem_append.mpr (Or.inl h))
        · simp at h
          rcases h with rfl | rfl | rfl | rfl <;>
            first
            | omega
            | exact hb _ (by simp)
      rw [hpad, pack14_append A [t0, 0, 0, 0] hAl, hc]
      simp only [unpackRow]
      rw [padBytes_take (pack14 A) (pack14 [t0, 0, 0, 0]) 7 2 (by omega) (by omega)
          (by rw [pack14_length]; omega) (by simp [pack14]) (tail14_1 t0),
        ← pack14_append A [t0, 0, 0, 0] hAl,
        unpack14_pack14 (A ++ [t0, 0, 0, 0]) (by simp; omega) hbnd,
        show A ++ [t0, 0, 0, 0] = (A ++ [t0]) ++ [0, 0, 0] by simp,
        List.take_left]
    · obtain ⟨t0, t1, rfl⟩ : ∃ t0 t1, T = [t0, t1] := by
        rcases T with _ | ⟨a, _ | ⟨b, _ | _⟩⟩
        · simp at h2
        · simp at h2
        · exact ⟨a, b, rfl⟩
        · simp at h2
      have hm : (A ++ [t0, t1]).length % 4 = 2 := by simp; omega
      have hpad : padRow 4 (A ++ [t0, t1]) = A ++ [t0, t1, 0, 0] := by
        rw [padRow, if_neg hr, hm,
          show List.replicate (4 - 2) (0 : Nat) = [0, 0] from rfl,
          List.append_assoc]
        simp
      have hc : valid_byte_width (A ++ [t0, t1]).length 14
          = (pack14 A).length + 4 := by
        rw [pack14_length]
        simp [valid_byte_width]
        omega
      have hbnd : ∀ s ∈ A ++ [t0, t1, 0, 0], s < 16384 := by
        intro s hs
        rcases List.mem_append.mp hs with h | h
        · exact hb s (List.mem_append.mpr (Or.inl h))
        · simp at h
          rcases h with rfl | rfl | rfl | rfl <;>
            first
            | omega
            | exact hb _ (by simp)
      rw [hpad, pack14_append A [t0, t1, 0, 0] hAl, hc]
      simp only [unpackRow]
      rw [padBytes_take (pack14 A) (pack14 [t0, t1, 0, 0]) 7 4 (by omega) (by omega)
          (by rw [pack14_length]; omega) (by simp [pack14]) (tail14_2 t0 t1),
        ← pack14_append A [t0, t1, 0, 0] hAl,
        unpack14_pack14 (A ++ [t0, t1, 0, 0]) (by simp; omega) hbnd,
        show A ++ [t0, t1, 0, 0] = (A ++ [t0, t1]) ++ [0, 0] by simp,
        List.take_left]
    · obtain ⟨t0, t1, t2, rfl⟩ : ∃ t0 t1 t2, T = [t0, t1, t2] := by
        rcases T with _ | ⟨a, _ | ⟨b, _ | ⟨c, _ | _⟩⟩⟩
        · simp at h3
        · simp at h3
        · simp at h3
        · exact ⟨a, b, c, rfl⟩
        · simp at h3
      have hm : (A ++ [t0, t1, t2]).length % 4 = 3 := by simp; omega
      have hpad : padRow 4 (A ++ [t0, t1, t2]) = A ++ [t0, t1, t2, 0] := by
        rw [padRow, if_neg hr, hm,
          show List.replicate (4 - 3) (0 : Nat) = [0] from rfl,
          List.append_assoc]
        simp
      have hc : valid_byte_width (A ++ [t0, t1, t2]).length 14
          = (pack14 A).length + 6 := by
        rw [pack14_length]
        simp [valid_byte_width]
        omega
      have hbnd : ∀ s ∈ A ++ [t0, t1, t2, 0], s < 16384 := by
        intro s hs
        rcases List.mem_append.mp hs with h | h
        · exact hb s (List.mem_append.mpr (Or.inl h))
        · simp at h
          rcases h with rfl | rfl | rfl | rfl <;>
            first
            | omega
            | exact hb _ (by simp)
      rw [hpad, pack14_append A [t0, t1, t2, 0] hAl, hc]
      simp only [unpackRow]
      rw [padBytes_take (pack14 A) (pack14 [t0, t1, t2, 0]) 7 6 (by omega) (by omega)
          (by rw [pack14_length]; omega) (by simp [pack14]) (tail14_3 t0 t1 t2),
        ← pack14_append A [t0, t1, t2, 0] hAl,
        unpack14_pack14 (A ++ [t0, t1, t2, 0]) (by simp; omega) hbnd,
        show A ++ [t0, t1, t2, 0] = (A ++ [t0, t1, t2]) ++ [0] by simp,
        List.take_left]

theorem map_id_of_mem {α : Type} (l : List α) (f : α → α) (h : ∀ a ∈ l, f a = a) :
    l.map f = l := by
  induction l with
  | nil => rfl
  | cons a l ih => simp [h a (by simp), ih fun x hx => h x (by simp [hx])]

theorem padRow_length (g : Nat) (row : List Nat) :
    (padRow g row).length =
      if row.length % g = 0 then row.length
      else row.length + (g - row.length % g) := by
  rw [padRow]
  split <;> simp

/-- C1: for every supported bit depth and every 2-D array of in-range
samples whose width is at least the group size, unpacking each packed row of
`pack_raw_safe` per the spec's group byte layout reproduces the row. -/
theorem claim_C1_pack_roundtrip (d : Nat) (data : List (List Nat)) (w : Nat)
    (out : List (List Nat))
    (hd : d = 10 ∨ d = 12 ∨ d = 14)
    (hrect : ∀ row ∈ data, row.length = w ∧ ∀ s ∈ row, s < 2 ^ d)
    (hw : group_size d ≤ w)
    (hok : pack_raw_safe data d = Except.ok out) :
    out.map (unpackRow d w) = data := by
  rcases hd with rfl | rfl | rfl
  · simp only [pack_raw_safe, Except.ok.injEq] at hok
    subst hok
    rw [List.map_map]
    apply map_id_of_mem
    intro row hrow
    obtain ⟨hlen, hsb⟩ := hrect row hrow
    simp only [Function.comp]
    rw [← hlen]
    exact roundtrip_row10 row (by simpa using hsb)
  · simp only [pack_raw_safe, Except.ok.injEq] at hok
    subst hok
    rw [List.map_map]
    apply map_id_of_mem
    intro row hrow
    obtain ⟨hlen, hsb⟩ := hrect row hrow
    simp only [Function.comp]
    rw [← hlen]
    exact roundtrip_row12 row (by simpa using hsb)
  · simp only [pack_raw_safe, Except.ok.injEq] at hok
    subst hok
    rw [List.map_map]
    apply map_id_of_mem
    intro row hrow
    obtain ⟨hlen, hsb⟩ := hrect row hrow
    simp only [Function.comp]
    rw [← hlen]
    exact roundtrip_row14 row (by simpa using hsb)

theorem claim_C1_pack_roundtrip_witness :
    ((10 = 10 ∨ 10 = 12 ∨ 10 = 14) ∧
      (∀ row ∈ [[1, 2, 3, 1023]], row.length = 4 ∧ ∀ s ∈ row, s < 2 ^ 10) ∧
      group_size 10 ≤ 4 ∧
      pack_raw_safe [[1, 2, 3, 1023]] 10 = Except.ok [[0, 64, 32, 15, 255]]) ∧
    [[0, 64, 32, 15, 255]].map (unpackRow 10 4) = [[1, 2, 3, 1023]] :=
  ⟨⟨Or.inl rfl, by decide, by decide, by decide⟩,
    claim_C1_pack_roundtrip 10 [[1, 2, 3, 1023]] 4 [[0, 64, 32, 15, 255]]
      (Or.inl rfl) (by decide) (by decide) (by decide)⟩

/-- C2: evaluating the code at the failing input.  `pack_raw_safe` does not
mask its samples at depth 10: the out-of-range sample 1024 leaks its high bit
into the adjacent packed field (second byte 64), whereas packing the masked
input gives 0 there, so `pack_raw_safe data d` differs from
`pack_raw_safe (data &&& (2^d - 1)) d`. -/
theorem claim_C2_no_masking :
    pack_raw_safe [[0, 1024, 0, 0]] 10 = Except.ok [[0, 64, 0, 0, 0]] ∧
    pack_raw_safe ([[0, 1024, 0, 0]].map (List.map fun s => s &&& (2 ^ 10 - 1))) 10
      = Except.ok [[0, 0, 0, 0, 0]] ∧
    pack_raw_safe [[0, 1024, 0, 0]] 10
      ≠ pack_raw_safe ([[0, 1024, 0, 0]].map (List.map fun s => s &&& (2 ^ 10 - 1))) 10 := by
  exact ⟨by decide, by decide, by decide⟩

/-- C3: each packed row is exactly `ceil(w*d/8)` bytes long, whether or not
the width is a multiple of the group size; and scenario B: width 101 at
14 bit pads to 104 samples, packs to 182 bytes and truncates to 177. -/
theorem claim_C3_row_length (d : Nat) (data : List (List Nat)) (w : Nat)
    (out : List (List Nat))
    (hd : d = 10 ∨ d = 12 ∨ d = 14)
    (hrect : ∀ row ∈ data, row.length = w)
    (_hw : 1 ≤ w) (_hh : 1 ≤ data.length)
    (hok : pack_raw_safe data d = Except.ok out) :
    (∀ r ∈ out, r.length = valid_byte_width w d) ∧
    (padRow 4 (List.replicate 101 (0 : Nat))).length = 104 ∧
    (pack14 (padRow 4 (List.replicate 101 (0 : Nat)))).length = 182 ∧
    valid_byte_width 101 14 = 177 := by
  refine ⟨?_, by decide, by decide, by decide⟩
  rcases hd with rfl | rfl | rfl
  · simp only [pack_raw_safe, Except.ok.injEq] at hok
    subst hok
    intro r hr
    obtain ⟨row, hrow, rfl⟩ := List.mem_map.mp hr
    have hlen := hrect row hrow
    have hle : valid_byte_width w 10 ≤ (padRow 4 row).length / 4 * 5 := by
      rw [padRow_length, hlen]
      unfold valid_byte_width
      split_ifs <;> omega
    rw [List.length_take, pack10_length, hlen]
    omega
  · simp only [pack_raw_safe, Except.ok.injEq] at hok
    subst hok
    intro r hr
    obtain ⟨row, hrow, rfl⟩ := List.mem_map.mp hr
    have hlen := hrect row hrow
    have hle : valid_byte_width w 12 ≤ (padRow 2 row).length / 2 * 3 := by
      rw [padRow_length, hlen]
      unfold valid_byte_width
      split_ifs <;> omega
    rw [List.length_take, pack12_length, hlen]
    omega
  · simp only [pack_raw_safe, Except.ok.injEq] at hok
    subst hok
    intro r hr
    obtain ⟨row, hrow, rfl⟩ := List.mem_map.mp hr
    have hlen := hrect row hrow
    have hle : valid_byte_width w 14 ≤ (padRow 4 row).length / 4 * 7 := by
      rw [padRow_length, hlen]
      unfold valid_byte_width
      split_ifs <;> omega
    rw [List.length_take, pack14_length, hlen]
    omega

theorem claim_C3_row_length_witness :
    ((12 = 10 ∨ 12 = 12 ∨ 12 = 14) ∧ (∀ row ∈ [[7, 8, 9]], row.length = 3) ∧
      1 ≤ 3 ∧ 1 ≤ [[7, 8, 9]].length ∧
      pack_raw_safe [[7, 8, 9]] 12 = Except.ok [[0, 112, 8, 0, 144]]) ∧
    (∀ r ∈ [[0, 112, 8, 0, 144]], r.length = valid_byte_width 3 12) :=
  ⟨⟨Or.inr (Or.inl rfl), by decide, by decide, by decide, by decide⟩,
    (claim_C3_row_length 12 [[7, 8, 9]] 3 [[0, 112, 8, 0, 144]]
      (Or.inr (Or.inl rfl)) (by decide) (by decide) (by decide) (by decide)).1⟩

/-! ## Facts shared by the orchestrator claims -/

/-- Every successful `__process__` emits the dtype-derived sample format and
backward version, uncompressed compression, and exactly the reserved tags
followed by the caller tags. -/
theorem process_ok_fields (frame : Frame) (tags : DNGTags) (out : ProcOut)
    (hok : process frame tags = Except.ok out) :
    out.sampleFormat = (if frame.dtype = DType.float32 then
        SampleFormat.FloatingPoint else SampleFormat.Uint) ∧
    out.backwardVersion = (if frame.dtype = DType.float32 then
        DNGVersion.V1_4 else DNGVersion.V1_0) ∧
    out.compression = Compression.Uncompressed ∧
    out.ifdTagIds = reservedTags ++ tags.list.map dngTag.tag := by
  simp only [process] at hok
  generalize hsf : (if frame.dtype = DType.float32 then SampleFormat.FloatingPoint
      else SampleFormat.Uint) = sf at hok ⊢
  generalize hbv : (if frame.dtype = DType.float32 then DNGVersion.V1_4
      else DNGVersion.V1_0) = bv at hok ⊢
  split at hok
  · split at hok
    · exact absurd hok (by simp)
    · split_ifs at hok <;>
        (injection hok with h
         subst h
         simp)
  · exact absurd hok (by simp)

/-- Every successful `__process__` whose bits-per-sample is outside
`{8, 10, 12, 14}` takes the native pass-through branch. -/
theorem process_native (frame : Frame) (tags : DNGTags) (out : ProcOut)
    (bpp : Nat) (bt : dngTag)
    (h8 : bpp ≠ 8) (h10 : bpp ≠ 10) (h12 : bpp ≠ 12) (h14 : bpp ≠ 14)
    (hB : tags.get Tag.BitsPerSample = some bt)
    (hbv : bt.rawValue.headD 0 = bpp)
    (hok : process frame tags = Except.ok out) :
    out.packed = PackedOut.native frame := by
  simp only [process] at hok
  split at hok
  · rename_i wt lt bt0 hW hL hB0
    have hbt : bt0 = bt := by
      rw [hB] at hB0
      injection hB0 with h
      exact h.symm
    subst hbt
    split at hok
    · exact absurd hok (by simp)
    · split_ifs at hok <;>
        first
        | (exfalso; omega)
        | (injection hok with h
           subst h
           simp)
  · exact absurd hok (by simp)

/-- C4 counterexample: with bits-per-sample 11 (outside {8,10,12,14,16,32})
and a validly shaped frame, conversion succeeds with native emission rather
than failing with an unsupported-bit-depth error. -/
theorem claim_C4_counterexample :
    convert { tags := some c4tags, filter := none } c4frame
      = Except.ok c4out := by
  decide

/-- C4 amended: for bits-per-sample outside {8, 10, 12, 14}, `__process__`
does not fail — it falls into the native pass-through `else` branch intended
for 16-bit integers and 32-bit floats and emits output; only a direct
`pack_raw_safe` call with a depth outside {10, 12, 14} raises the
unsupported-bit-depth `ValueError`. -/
theorem claim_C4_unsupported_depth (frame : Frame) (tags : DNGTags)
    (out : ProcOut) (bpp : Nat) (bt : dngTag)
    (h8 : bpp ≠ 8) (h10 : bpp ≠ 10) (h12 : bpp ≠ 12) (h14 : bpp ≠ 14)
    (hB : tags.get Tag.BitsPerSample = some bt)
    (hbv : bt.rawValue.headD 0 = bpp)
    (hok : process frame tags = Except.ok out) :
    out.packed = PackedOut.native frame ∧
    ∀ d data, d ≠ 10 → d ≠ 12 → d ≠ 14 →
      pack_raw_safe data d = Except.error ErrKind.unsupportedDepth := by
  refine ⟨process_native frame tags out bpp bt h8 h10 h12 h14 hB hbv hok, ?_⟩
  intro d data hd10 hd12 hd14
  unfold pack_raw_safe
  split <;> simp_all

theorem claim_C4_unsupported_depth_witness :
    ((11 : Nat) ≠ 8 ∧ (11 : Nat) ≠ 10 ∧ (11 : Nat) ≠ 12 ∧ (11 : Nat) ≠ 14 ∧
      c4tags.get Tag.BitsPerSample = some ⟨Tag.BitsPerSample, [11]⟩ ∧
      process c4frame c4tags = Except.ok c4out) ∧
    c4out.packed = PackedOut.native c4frame :=
  ⟨⟨by decide, by decide, by decide, by decide, by decide, by decide⟩,
    (claim_C4_unsupported_depth c4frame c4tags c4out 11 ⟨Tag.BitsPerSample, [11]⟩
      (by decide) (by decide) (by decide) (by decide) (by decide) (by decide)
      (by decide)).1⟩

/-- C5 counterexample: a caller tag set containing the reserved `Software`
tag converts without any error, and the emitted directory contains the tag
identifier `Software` twice — no `ReservedTagConflict` detection exists. -/
theorem claim_C5_counterexample :
    convert { tags := some c5tags, filter := none } c5frame = Except.ok c5out ∧
    2 ≤ c5out.ifdTagIds.count Tag.Software :=
  ⟨by decide, by decide⟩

/-- C5 amended: the code performs no reserved-tag conflict check — a caller
tag whose identifier is one of the eight injected reserved tags is appended
after them, so every successful conversion emits a directory that contains
that identifier at least twice. -/
theorem claim_C5_duplicate_reserved (frame : Frame) (tags : DNGTags)
    (out : ProcOut) (t : Tag)
    (ht : t ∈ reservedTags) (hcaller : t ∈ tags.list.map dngTag.tag)
    (hok : process frame tags = Except.ok out) :
    2 ≤ out.ifdTagIds.count t := by
  have h := (process_ok_fields frame tags out hok).2.2.2
  rw [h, List.count_append]
  have h1 : 1 ≤ reservedTags.count t := List.one_le_count_iff.mpr ht
  have h2 : 1 ≤ (tags.list.map dngTag.tag).count t := List.one_le_count_iff.mpr hcaller
  omega

theorem claim_C5_duplicate_reserved_witness :
    (Tag.Software ∈ reservedTags ∧
      Tag.Software ∈ c5tags.list.map dngTag.tag ∧
      process c5frame c5tags = Except.ok c5out) ∧
    2 ≤ c5out.ifdTagIds.count Tag.Software :=
  ⟨⟨by decide, by decide, by decide⟩,
    claim_C5_duplicate_reserved c5frame c5tags c5out Tag.Software
      (by decide) (by decide) (by decide)⟩

/-- C6: a tag set lacking width, height or bits-per-sample makes the
configuration call itself fail (with the corresponding missing-tag error),
so `options` never produces a configured converter from it — the failure
happens at configuration time, not at conversion time. -/
theorem claim_C6_config_fail_fast (c : Converter) (tags : DNGTags)
    (hmiss : (tags.get Tag.ImageWidth).isNone ∨ (tags.get Tag.ImageLength).isNone
      ∨ (tags.get Tag.BitsPerSample).isNone) :
    (∃ e, (e = ErrKind.noWidth ∨ e = ErrKind.noHeight ∨ e = ErrKind.noBpp) ∧
      options c tags = Except.error e) ∧
    ∀ c', options c tags ≠ Except.ok c' := by
  have hmain : ∃ e, (e = ErrKind.noWidth ∨ e = ErrKind.noHeight
      ∨ e = ErrKind.noBpp) ∧ options c tags = Except.error e := by
    by_cases h1 : (tags.get Tag.ImageWidth).isNone
    · exact ⟨.noWidth, Or.inl rfl, by simp [options, tags_condition, h1]⟩
    · by_cases h2 : (tags.get Tag.ImageLength).isNone
      · exact ⟨.noHeight, Or.inr (Or.inl rfl),
          by simp [options, tags_condition, h1, h2]⟩
      · have h3 : (tags.get Tag.BitsPerSample).isNone := by
          rcases hmiss with h | h | h
          · exact absurd h h1
          · exact absurd h h2
          · exact h
        exact ⟨.noBpp, Or.inr (Or.inr rfl),
          by simp [options, tags_condition, h1, h2, h3]⟩
  refine ⟨hmain, ?_⟩
  intro c' hc'
  obtain ⟨e, _, he⟩ := hmain
  rw [he] at hc'
  exact absurd hc' (by simp)

theorem claim_C6_config_fail_fast_witness :
    ((DNGTags.get [] Tag.ImageWidth).isNone
      ∨ (DNGTags.get [] Tag.ImageLength).isNone
      ∨ (DNGTags.get [] Tag.BitsPerSample).isNone) ∧
    ((∃ e, (e = ErrKind.noWidth ∨ e = ErrKind.noHeight ∨ e = ErrKind.noBpp) ∧
        options Converter.init [] = Except.error e) ∧
      ∀ c', options Converter.init [] ≠ Except.ok c') :=
  ⟨by decide, claim_C6_config_fail_fast Converter.init [] (by decide)⟩

/-- C7: the derived sample format and backward version are a function of the
processed frame's element type alone, whatever the tag configuration:
float32 gives floating point and DNG 1.4; uint16 gives unsigned integer and
DNG 1.0. -/
theorem claim_C7_sample_format (frame : Frame) (tags : DNGTags) (out : ProcOut)
    (hok : process frame tags = Except.ok out) :
    (frame.dtype = DType.float32 → out.sampleFormat = SampleFormat.FloatingPoint
      ∧ out.backwardVersion = DNGVersion.V1_4) ∧
    (frame.dtype = DType.uint16 → out.sampleFormat = SampleFormat.Uint
      ∧ out.backwardVersion = DNGVersion.V1_0) := by
  obtain ⟨hsf, hbv, -, -⟩ := process_ok_fields frame tags out hok
  refine ⟨fun h => ?_, fun h => ?_⟩ <;> simp [hsf, hbv, h]

theorem claim_C7_sample_format_witness :
    (process c7frame c7tags = Except.ok c7out) ∧
    ((c7frame.dtype = DType.float32 →
        c7out.sampleFormat = SampleFormat.FloatingPoint
        ∧ c7out.backwardVersion = DNGVersion.V1_4) ∧
      (c7frame.dtype = DType.uint16 → c7out.sampleFormat = SampleFormat.Uint
        ∧ c7out.backwardVersion = DNGVersion.V1_0)) :=
  ⟨by decide, claim_C7_sample_format c7frame c7tags c7out (by decide)⟩

/-- C8 counterexample: with a pixel transform configured, a 32-bit float
frame is transformed like any other input: the strip bytes derive from the
transform's output, which differs from the unmodified float frame. -/
theorem claim_C8_counterexample :
    (convert { tags := some c8tags, filter := some c8transform } c8img).map
        ProcOut.packed
      = Except.ok (PackedOut.native (c8transform c8img)) ∧
    c8transform c8img ≠ c8img :=
  ⟨by decide, by decide⟩

/-- C8 amended: only when no pixel transform is configured does the float
path apply the identity: for a float32 frame at 32 bits-per-sample with no
filter set, the strip is the native emission of the unmodified frame.  A
configured transform, by contrast, is applied to float frames exactly as to
integer frames (it must return a uint16 array). -/
theorem claim_C8_float_identity_no_filter (tags : DNGTags) (img : Frame)
    (out : ProcOut) (bt : dngTag)
    (hf : img.dtype = DType.float32)
    (hB : tags.get Tag.BitsPerSample = some bt)
    (hbv : bt.rawValue.headD 0 = 32)
    (hok : convert { tags := some tags, filter := none } img = Except.ok out) :
    out.packed = PackedOut.native img := by
  simp only [convert, data_condition, filterStep, hf] at hok
  simp at hok
  exact process_native img tags out 32 bt (by omega) (by omega) (by omega)
    (by omega) hB hbv hok

theorem claim_C8_float_identity_no_filter_witness :
    (c8img.dtype = DType.float32 ∧
      c8tags.get Tag.BitsPerSample = some ⟨Tag.BitsPerSample, [32]⟩ ∧
      convert { tags := some c8tags, filter := none } c8img
        = Except.ok c8out) ∧
    c8out.packed = PackedOut.native c8img :=
  ⟨⟨by decide, by decide, by decide⟩,
    claim_C8_float_identity_no_filter c8tags c8img c8out
      ⟨Tag.BitsPerSample, [32]⟩ (by decide) (by decide) (by decide) (by decide)⟩

/-- C10: calling `convert` on a converter whose `options` was never invoked
fails with the options-not-set error for every frame — even one that would
fail frame validation — so the guard precedes all validation, transform,
packing and output. -/
theorem claim_C10_convert_unconfigured (image : Frame) :
    convert Converter.init image = Except.error ErrKind.optionsNotSet := rfl

/-! ## Store preservation: the conversion never writes a pre-existing buffer -/

theorem read_append (s : Store) (b : Buffer) (i : Nat) (hi : i < s.length) :
    Store.read (s ++ [b]) i = s.read i := by
  simp only [Store.read, List.getD_eq_getElem?_getD]
  rw [List.getElem?_append_left hi]

theorem read_set (s : Store) (r : Nat) (b : Buffer) (i : Nat) (hir : r ≠ i) :
    Store.read (s.set r b) i = s.read i := by
  simp only [Store.read, List.getD_eq_getElem?_getD]
  rw [List.getElem?_set_ne hir]

theorem pack10_st_preserves (s : Store) (dataRef i : Nat) (hi : i < s.length) :
    (pack10_st s dataRef).1.read i = s.read i := by
  simp only [pack10_st, Store.alloc, Store.write]
  rw [read_set _ _ _ _ (by omega), read_append _ _ _ hi]

theorem pack12_st_preserves (s : Store) (dataRef i : Nat) (hi : i < s.length) :
    (pack12_st s dataRef).1.read i = s.read i := by
  simp only [pack12_st, Store.alloc, Store.write]
  rw [read_set _ _ _ _ (by omega), read_append _ _ _ hi]

theorem pack14_st_preserves (s : Store) (dataRef i : Nat) (hi : i < s.length) :
    (pack14_st s dataRef).1.read i = s.read i := by
  simp only [pack14_st, Store.alloc, Store.write]
  rw [read_set _ _ _ _ (by omega), read_append _ _ _ hi]

theorem pack_tail_st_preserves (s : Store) (dataRef g : Nat)
    (packF : Store → Nat → Store × Nat) (d : Nat)
    (hpack : ∀ s' r i, i < s'.length → (packF s' r).1.read i = s'.read i)
    (i : Nat) (hi : i < s.length) :
    (pack_tail_st s dataRef g packF d).1.read i = s.read i := by
  simp only [pack_tail_st, Store.alloc]
  split
  · exact hpack s dataRef i hi
  · rw [hpack _ _ i (by simp; omega), read_append _ _ _ hi]

theorem process_st_preserves (s : Store) (frameRef : Nat) (tags : DNGTags)
    (i : Nat) (hi : i < s.length) :
    (process_st s frameRef tags).1.read i = s.read i := by
  simp only [process_st, pack_raw_safe_st, Store.alloc]
  split
  · split_ifs
    · rfl
    · exact read_append _ _ _ hi
    · exact pack_tail_st_preserves s frameRef 4 pack10_st 10 pack10_st_preserves i hi
    · exact pack_tail_st_preserves s frameRef 2 pack12_st 12 pack12_st_preserves i hi
    · exact pack_tail_st_preserves s frameRef 4 pack14_st 14 pack14_st_preserves i hi
    · rfl
  · rfl

/-- C9: a conversion call with no pixel transform configured never mutates
the input sample buffer — whether the call returns or raises, and on every
bits-per-sample path: the 8-bit `astype` truncation, the 10/12/14-bit
packing, and the native 16-bit/float pass-through.  All writes target
freshly allocated buffers. -/
theorem claim_C9_input_not_mutated (s : Store) (ctags : Option DNGTags)
    (imageRef : Nat) (dtype : DType) (himg : imageRef < s.length) :
    (convert_st s ctags imageRef dtype).1.read imageRef = s.read imageRef := by
  simp only [convert_st]
  split
  · rfl
  · split
    · rfl
    · exact process_st_preserves _ _ _ imageRef himg

theorem claim_C9_input_not_mutated_witness :
    0 < ([[[1, 2, 3, 1023]]] : Store).length ∧
    (convert_st [[[1, 2, 3, 1023]]] (some c9tags) 0 DType.uint16).1.read 0
      = Store.read [[[1, 2, 3, 1023]]] 0 :=
  ⟨by decide,
    claim_C9_input_not_mutated [[[1, 2, 3, 1023]]] (some c9tags) 0 DType.uint16
      (by decide)⟩

end Numpy2DNG
